import Mathlib

/-!
Shallow embedding of `src/staff_app.py` (a Flask + psycopg2 order-management
API for a restaurant point of sale).  The single `orders` table is modelled
as a list of rows; each HTTP handler becomes a pure function from the table
(and its request inputs) to a result record carrying the HTTP status code,
the response payload, the new table, and a trace of the per-request database
connection lifecycle (acquired / closed), which the source manages manually
with `get_db_connection()` and explicit `conn.close()` calls.

Numeric values are embedded exactly: item `price` as `ℚ` (JSON numbers are
finite) and the stored `total` as `PyFloat` — a finite exact rational or
one of `float()`'s non-finite values `inf`, `-inf`, `nan`, which a
floating-point column stores like any other float.  Every claim is about
exact recomputation of sums and about `float()`'s convert-versus-raise
boundary, not about IEEE rounding.  JSON serialization (`json.dumps` /
`json.loads`) of the item column is the identity in the model: the column
stores the structured list directly, as the spec's
"structured-document-capable type" describes.
-/

/-- A Python float value: a finite number (idealized as an exact
rational, since no claim is about IEEE rounding), or one of the
non-finite values `float("inf")`, `float("-inf")` and `float("nan")`,
which `float()` produces from the corresponding strings and which the
floating-point `total` column stores like any other float. -/
inductive PyFloat where
  | finite (q : ℚ)
  | inf
  | negInf
  | nan
deriving DecidableEq, Repr

instance (n : Nat) : OfNat PyFloat n := ⟨.finite (OfNat.ofNat n)⟩

/-- One line item of an order, as stored in the JSON `item` column.
`price` is `none` when the JSON object has no `price` key
(`i.get('price', 0)` then yields `0`); `extra` stands for the arbitrary
further JSON fields that the handlers pass through untouched. -/
structure Item where
  name : String := ""
  price : Option ℚ := none
  extra : String := ""
deriving DecidableEq, Repr

/-- One row of the `orders` table (§3 of the spec).  `total` is nullable in
the database, hence `Option ℚ`; `status` is free text defaulting to
`"pending"`; `created_at` is an abstract timestamp. -/
structure OrderRow where
  id : Nat
  name : Option String := none
  phone : Option String := none
  table_number : Option String := none
  item : List Item := []
  total : Option PyFloat := none
  status : String := "pending"
  created_at : Nat := 0
deriving DecidableEq, Repr

/-- The database: the rows of `orders` plus the sequence value backing the
auto-assigned primary key (`RETURNING id` in `submit_order`). -/
structure DB where
  rows : List OrderRow
  nextId : Nat
deriving DecidableEq, Repr

/-- Model of `SELECT ... FROM orders WHERE id = %s` plus `fetchone()`:
`id` is the primary key, so at most one row matches. -/
def findOrder (rows : List OrderRow) (oid : Nat) : Option OrderRow :=
  rows.find? (fun r => r.id == oid)

/-- Model of `UPDATE orders SET ... WHERE id = %s`: rewrite every row whose id
matches (at most one, by the primary key). -/
def updateRow (rows : List OrderRow) (oid : Nat) (f : OrderRow → OrderRow) :
    List OrderRow :=
  rows.map (fun r => if r.id == oid then f r else r)

/-- Model of `sum(float(i.get('price', 0)) for i in items)` from `delete_item`:
a missing `price` contributes `0`. -/
def sumPrices (items : List Item) : ℚ :=
  (items.map (fun i => i.price.getD 0)).sum

/-- Result of the `/delete-item/<order_id>/<item_index>` handler. -/
structure DeleteItemOut where
  code : Nat
  msg : String
  rows : List OrderRow
  connAcquired : Bool
  connClosed : Bool
deriving DecidableEq, Repr

/-- The `/delete-item/<int:order_id>/<int:item_index>` handler
(`delete_item`, lines 123-160).  Flask's `int` route converter only
produces non-negative integers, so the `item_index < 0` half of the range
check at line 136 is unreachable and the index is a `Nat` here.  On the
not-found and out-of-range early returns the source returns without
executing `conn.close()` (line 155 runs only on the success path), which
the `connClosed` field records.  In the empty-remainder branch the
`UPDATE` at lines 150-153 sets only `status` and `total`; the `item`
column is left as it was. -/
def delete_item (rows : List OrderRow) (oid idx : Nat) : DeleteItemOut :=
  match findOrder rows oid with
  | none => ⟨404, "Order not found", rows, true, false⟩
  | some row =>
    if idx < row.item.length then
      let items' := row.item.eraseIdx idx
      if items'.isEmpty then
        ⟨200, "Item deleted and total updated!",
          updateRow rows oid
            (fun r => { r with status := "completed", total := some 0 }),
          true, true⟩
      else
        ⟨200, "Item deleted and total updated!",
          updateRow rows oid
            (fun r => { r with item := items', total := some (.finite (sumPrices items')) }),
          true, true⟩
    else ⟨400, "Item index out of range", rows, true, false⟩

/-- Result of the handlers whose body is a single message. -/
structure SimpleOut where
  code : Nat
  msg : String
  rows : List OrderRow
  connAcquired : Bool
  connClosed : Bool
deriving DecidableEq, Repr

/-- The `/delete-order/<int:order_id>` handler (`delete_order`,
lines 92-104): `UPDATE orders SET status = 'completed' WHERE id = %s`,
then 200 — also when zero rows match. -/
def delete_order (rows : List OrderRow) (oid : Nat) : SimpleOut :=
  ⟨200, "Order marked as completed!",
    updateRow rows oid (fun r => { r with status := "completed" }),
    true, true⟩

/-- The `/delete-all-orders` handler (`delete_all_orders`, lines 109-118):
`UPDATE orders SET status = 'completed' WHERE status != 'completed'`. -/
def delete_all_orders (rows : List OrderRow) : SimpleOut :=
  ⟨200, "All orders marked as completed!",
    rows.map (fun r =>
      if r.status ≠ "completed" then { r with status := "completed" } else r),
    true, true⟩

/-- The `ORDER BY id ASC` comparison as a propositional relation on rows. -/
def idLe (a b : OrderRow) : Prop := a.id ≤ b.id

instance : DecidableRel idLe := fun a b => Nat.decLe a.id b.id

instance : IsTotal OrderRow idLe := ⟨fun a b => Nat.le_total a.id b.id⟩

instance : IsTrans OrderRow idLe := ⟨fun _ _ _ => Nat.le_trans⟩

/-- The rows `SELECT ... FROM orders WHERE status != 'completed'
ORDER BY id ASC` returns (`get_orders`, lines 58-65). -/
def activeSorted (rows : List OrderRow) : List OrderRow :=
  List.insertionSort idLe (rows.filter (fun r => r.status ≠ "completed"))

/-- The JSON object built for one row of the `get_orders` response. -/
structure OrderView where
  id : Nat
  name : Option String
  phone : Option String
  table : Option String
  items : List Item
  total : PyFloat
deriving DecidableEq, Repr

/-- Building one response object (lines 73-80).  `float(row[5])` raises
`TypeError` when the stored total is SQL NULL (Python `None`), so the view
is `none` in that case; the raised error aborts the whole loop and is
caught by the handler's outer `except`.  The item column is already
structured in the model, so the per-row JSON-decode fallback to `[]` at
lines 68-72 cannot fire. -/
def rowView (r : OrderRow) : Option OrderView :=
  match r.total with
  | none => none
  | some q => some ⟨r.id, r.name, r.phone, r.table_number, r.item, q⟩

/-- The response loop of `get_orders`: stops with an error as soon as one
row's view raises (null total). -/
def mapViews : List OrderRow → Option (List OrderView)
  | [] => some []
  | r :: rs =>
    match rowView r, mapViews rs with
    | some v, some vs => some (v :: vs)
    | _, _ => none

/-- Result of the `/get-orders` handler. -/
structure GetOrdersOut where
  code : Nat
  body : Option (List OrderView)
  connAcquired : Bool
  connClosed : Bool
deriving DecidableEq, Repr

/-- The `/get-orders` handler (`get_orders`, lines 54-87).  On the
exception path (a null total reaching `float`) the `except` block returns
500 without closing the connection. -/
def get_orders (rows : List OrderRow) : GetOrdersOut :=
  match mapViews (activeSorted rows) with
  | some views => ⟨200, some views, true, true⟩
  | none => ⟨500, none, true, false⟩

/-- The `total` field of a submit-order request body:
absent, a JSON number, a JSON string, or JSON null. -/
inductive TotalField where
  | missing
  | num (q : ℚ)
  | str (s : String)
  | null
deriving DecidableEq, Repr

/-- Numeric value of a digit string, most significant digit first. -/
def digitsVal (ds : List Char) : Nat :=
  ds.foldl (fun a c => 10 * a + (c.toNat - 48)) 0

/-- The whitespace `float()` strips from both ends of its string
argument (the ASCII subset: space, tab, newline, carriage return,
vertical tab, form feed). -/
def isPySpace (c : Char) : Bool :=
  c == ' ' || c == '\t' || c == '\n' || c == '\r' || c == '\x0b' || c == '\x0c'

def stripSpaces (cs : List Char) : List Char :=
  ((cs.dropWhile isPySpace).reverse.dropWhile isPySpace).reverse

/-- Continuation of a digit part after its first digit: further digits,
with single underscores allowed between digits only (PEP 515).  Returns
the digits consumed and the unconsumed remainder. -/
def digitPartAux : List Char → (List Char × List Char)
  | [] => ([], [])
  | c :: cs =>
    if c.isDigit then
      let (ds, rest) := digitPartAux cs
      (c :: ds, rest)
    else if c == '_' then
      match cs with
      | d :: cs' =>
        if d.isDigit then
          let (ds, rest) := digitPartAux cs'
          (d :: ds, rest)
        else ([], c :: cs)
      | [] => ([], [c])
    else ([], c :: cs)

/-- A digit part of a Python float literal: one or more digits with
underscore grouping.  `none` when the input does not start with a
digit. -/
def takeDigitPart : List Char → Option (List Char × List Char)
  | [] => none
  | c :: cs =>
    if c.isDigit then
      let (ds, rest) := digitPartAux cs
      some (c :: ds, rest)
    else none

/-- The mantissa of a Python float literal: `digits`, `digits.`,
`digits.digits` or `.digits`.  Returns the concatenated digits' value,
the number of fractional digits, and the unconsumed remainder, so that
the mantissa's value is the first component divided by ten to the
second. -/
def parseMantissa (cs : List Char) : Option (Nat × Nat × List Char) :=
  match takeDigitPart cs with
  | some (ds, r1) =>
    match r1 with
    | '.' :: r2 =>
      match takeDigitPart r2 with
      | some (fs, r3) => some (digitsVal (ds ++ fs), fs.length, r3)
      | none => some (digitsVal ds, 0, r2)
    | _ => some (digitsVal ds, 0, r1)
  | none =>
    match cs with
    | '.' :: r2 =>
      match takeDigitPart r2 with
      | some (fs, r3) => some (digitsVal fs, fs.length, r3)
      | none => none
    | _ => none

/-- The exponent of a Python float literal: `e` or `E`, an optional
sign, and a digit part. -/
def parseExp (cs : List Char) : Option (Int × List Char) :=
  match cs with
  | c :: r1 =>
    if c == 'e' || c == 'E' then
      let (sgn, r2) : Int × List Char :=
        match r1 with
        | '+' :: t => (1, t)
        | '-' :: t => (-1, t)
        | t => (1, t)
      match takeDigitPart r2 with
      | some (ds, r3) => some (sgn * (digitsVal ds : Int), r3)
      | none => none
    else none
  | [] => none

/-- The numeric (non-inf, non-nan) body of a Python float literal:
mantissa with optional exponent, nothing left over.  The value is
mantissa digits `d` times ten to the exponent minus the number of
fractional digits, computed as one cast (or one division) so that it
reduces by plain ℕ arithmetic when it is an integer. -/
def parseNumber (cs : List Char) : Option ℚ :=
  match parseMantissa cs with
  | none => none
  | some (d, f, rest) =>
    let scaled : Int → Option ℚ := fun e =>
      let e' := e - (f : Int)
      some (if 0 ≤ e' then ((d * 10 ^ e'.toNat : ℕ) : ℚ)
            else (d : ℚ) / ((10 ^ (-e').toNat : ℕ) : ℚ))
    match rest with
    | [] => scaled 0
    | _ =>
      match parseExp rest with
      | some (e, []) => scaled e
      | _ => none

/-- Python `float(s)` on a string: strip surrounding whitespace, an
optional sign, then either (case-insensitively) `inf`/`infinity`/`nan`
or a decimal literal with optional fraction, exponent and underscore
grouping — e.g. `"1e3"`, `" 12 "`, `"1_000"`, `".5"`, `"1.e3"` and
`"inf"` convert, while `"abc"`, `""`, `"1__0"`, `"1e"` and `"+ 5"`
raise.  `none` models the raised `ValueError`.  Values are exact
rationals (the file's ℚ idealization of floats, which ignores IEEE
rounding and overflow), and digits and whitespace are the ASCII ones. -/
def parsePyFloat (s : String) : Option PyFloat :=
  let cs := stripSpaces s.data
  let neg : Bool :=
    match cs with
    | '-' :: _ => true
    | _ => false
  let body : List Char :=
    match cs with
    | '+' :: t => t
    | '-' :: t => t
    | t => t
  let lower := body.map Char.toLower
  if lower == "inf".data || lower == "infinity".data then
    some (if neg then .negInf else .inf)
  else if lower == "nan".data then
    some .nan
  else
    match parseNumber body with
    | some q => some (.finite (if neg then -q else q))
    | none => none

/-- Model of `float(data.get('total', 0))` at line 30 of `submit_order`:
a missing key defaults to `0`, a number converts to itself, a string is
parsed by `float()`'s grammar (or raises `ValueError`), and JSON null
(Python `None`) raises `TypeError`.  `none` is the raised exception. -/
def pyFloat? : TotalField → Option PyFloat
  | .missing => some (.finite 0)
  | .num q => some (.finite q)
  | .str s => parsePyFloat s
  | .null => none

/-- Result of the `/submit-order` handler. -/
structure SubmitOut where
  code : Nat
  order_id : Option Nat
  db : DB
  connAcquired : Bool
  connClosed : Bool
deriving DecidableEq, Repr

/-- The `/submit-order` handler (`submit_order`, lines 23-49).  The
`float` conversion at line 30 runs before the `try:` block, so a
non-convertible total raises out of the handler (Flask answers 500)
before any connection is acquired or row inserted.
Modelled from the spec: the `orders` table schema is not under `src/`
(the INSERT writes `status` and `created_at` as `DEFAULT`); per §3 of the
spec the defaults are `status = "pending"` and the insertion-time
timestamp, supplied here by the `now` parameter. -/
def submit_order (db : DB) (name phone table : Option String)
    (items : List Item) (total : TotalField) (now : Nat) : SubmitOut :=
  match pyFloat? total with
  | none => ⟨500, none, db, false, false⟩
  | some q =>
    let row : OrderRow :=
      { id := db.nextId, name := name, phone := phone, table_number := table,
        item := items, total := some q, status := "pending", created_at := now }
    ⟨200, some db.nextId, ⟨db.rows ++ [row], db.nextId + 1⟩, true, true⟩

/-- Python truthiness of `request.args.get('phone')`: `None` and the
empty string are falsy. -/
def truthyStr : Option String → Bool
  | none => false
  | some s => !(s == "")

/-- Python truthiness of `request.args.get('order', type=int)`: `None`
and `0` are falsy. -/
def truthyInt : Option Int → Bool
  | none => false
  | some n => !(n == 0)

/-- Model of `WHERE phone = %s`: SQL equality never matches a NULL phone. -/
def phoneRows (rows : List OrderRow) (p : String) : List OrderRow :=
  rows.filter (fun r => r.phone == some p)

/-- Model of `ORDER BY id DESC LIMIT 1` plus `fetchone()`: the row with the
greatest id (ids are unique, being the primary key). -/
def maxIdRow? : List OrderRow → Option OrderRow
  | [] => none
  | r :: rs =>
    match maxIdRow? rs with
    | none => some r
    | some m => some (if m.id ≤ r.id then r else m)

/-- Result of the `/order-status` handler. -/
structure StatusOut where
  code : Nat
  found : Bool
  status : Option String
  error : Option String
  connAcquired : Bool
  connClosed : Bool
deriving DecidableEq, Repr

/-- The row fetched by `order_status` (lines 176-185): with a truthy
order id, `SELECT status ... WHERE id = %s AND phone = %s`; otherwise the
matching row with the greatest id.  `if order_id:` at line 176 uses
Python truthiness, so `order=0` takes the phone-only branch. -/
def statusRow (rows : List OrderRow) (p : String) (order : Option Int) :
    Option OrderRow :=
  if truthyInt order then
    rows.find? (fun r => ((r.id : Int) == order.getD 0) && (r.phone == some p))
  else
    maxIdRow? (phoneRows rows p)

/-- The `/order-status` handler (`order_status`, lines 166-193).  The
phone check precedes any database access.  The source closes the cursor
and connection before testing the fetched row, so both the 200 and the
404 answers release the connection. -/
def order_status (rows : List OrderRow) (phone : Option String)
    (order : Option Int) : StatusOut :=
  if truthyStr phone then
    match statusRow rows (phone.getD "") order with
    | some r => ⟨200, true, some r.status, none, true, true⟩
    | none => ⟨404, false, none, none, true, true⟩
  else ⟨400, false, none, some "phone_required", false, false⟩

/-- One request, for the cross-operation status invariant. -/
inductive Op where
  | submit (name phone table : Option String) (items : List Item)
      (total : TotalField) (now : Nat)
  | completeOne (oid : Nat)
  | completeAll
  | deleteItem (oid idx : Nat)
  | statusLookup (phone : Option String) (order : Option Int)
  | listOrders

/-- The table (and id sequence) after one request. -/
def applyOp (db : DB) : Op → DB
  | .submit n p t items tot now => (submit_order db n p t items tot now).db
  | .completeOne oid => ⟨(delete_order db.rows oid).rows, db.nextId⟩
  | .completeAll => ⟨(delete_all_orders db.rows).rows, db.nextId⟩
  | .deleteItem oid idx => ⟨(delete_item db.rows oid idx).rows, db.nextId⟩
  | .statusLookup _ _ => db
  | .listOrders => db

/-! Concrete rows used to instantiate the theorems. -/

def burger : Item := { name := "burger", price := some 5 }

def fries : Item := { name := "fries", price := some 7 }

/-- A pending two-item order. -/
def exTwoItems : OrderRow :=
  { id := 1, phone := some "0501234567", item := [burger, fries], total := some 12 }

/-- A pending one-item order. -/
def exOneItem : OrderRow :=
  { id := 2, phone := some "0501234567", item := [burger], total := some 5 }

/-- A pending order whose stored total is SQL NULL. -/
def exNullTotal : OrderRow := { id := 3, total := none }

/-- An order that is already completed. -/
def exCompleted : OrderRow :=
  { id := 4, item := [fries], total := some 7, status := "completed" }

/-- A row's response object with a null total read as `0` — the reading
the claim attributes to the code.  On rows whose total is not null it
agrees with `rowView`. -/
def rowViewTotal (r : OrderRow) : OrderView :=
  ⟨r.id, r.name, r.phone, r.table_number, r.item, r.total.getD 0⟩

/-- The whole get-orders response as the claim's words describe it:
every active order, ascending by id, with a null total defaulting to 0. -/
def get_orders_claimed (rows : List OrderRow) : List OrderView :=
  (activeSorted rows).map rowViewTotal

/-- An order with the same phone as `exPhoneB` but a smaller id. -/
def exPhoneA : OrderRow :=
  { id := 7, phone := some "0541112222", status := "pending" }

/-- The most recent (highest-id) order for phone `"0541112222"`. -/
def exPhoneB : OrderRow :=
  { id := 9, phone := some "0541112222", status := "completed" }

/-! ## C4: out-of-range delete-item -/

/-- C4: when the order exists but the index is outside `[0, length)`
(Flask's route converter excludes negatives, so that means
`length ≤ idx`), `delete_item` answers 400 "Item index out of range" and
the table is returned unchanged — item list, total and status of every
order untouched. -/
theorem deleteItem_outOfRange (rows : List OrderRow) (oid idx : Nat)
    (r : OrderRow) (hfind : findOrder rows oid = some r)
    (hidx : r.item.length ≤ idx) :
    delete_item rows oid idx =
      ⟨400, "Item index out of range", rows, true, false⟩ := by
  unfold delete_item
  rw [hfind]
  simp only [if_neg (Nat.not_lt.mpr hidx)]

/-- Witness for C4: deleting index 5 of the two-item order 1. -/
theorem deleteItem_outOfRange_witness :
    delete_item [exTwoItems] 1 5 =
      ⟨400, "Item index out of range", [exTwoItems], true, false⟩ :=
  deleteItem_outOfRange [exTwoItems] 1 5 exTwoItems rfl (by decide)

/-! ## C1: deleting the last item -/

/-- C1 counterexample: deleting the only item of order 2 does set
`status = "completed"` and `total = 0`, but the `UPDATE` in the empty
branch does not touch the `item` column: the stored item list is still
`[burger]`, not the empty list the claim asserts is persisted. -/
theorem deleteItem_lastItem_cex :
    exOneItem.item.eraseIdx 0 = [] ∧
    (delete_item [exOneItem] 2 0).code = 200 ∧
    (delete_item [exOneItem] 2 0).rows =
      [{ exOneItem with status := "completed", total := some 0 }] ∧
    ((delete_item [exOneItem] 2 0).rows.map (fun r => r.item)) = [[burger]] ∧
    [[burger]] ≠ ([[]] : List (List Item)) := by
  refine ⟨rfl, rfl, by decide, by decide, by decide⟩

/-- C1 (amended): when removing the indexed element leaves the item list
empty, the operation answers 200 and sets the stored status to
`"completed"` and the stored total to `0`, but it leaves the order's
`item` column unchanged (the `UPDATE` of the empty branch writes only
`status` and `total`); orders with a different id are untouched. -/
theorem deleteItem_lastItem_completes (rows : List OrderRow)
    (oid idx : Nat) (r : OrderRow) (hfind : findOrder rows oid = some r)
    (hidx : idx < r.item.length) (hemp : r.item.eraseIdx idx = []) :
    (delete_item rows oid idx).code = 200 ∧
    ∀ r' ∈ (delete_item rows oid idx).rows,
      (r'.id = oid → r'.status = "completed" ∧ r'.total = some 0 ∧
        ∃ s ∈ rows, s.id = oid ∧ r'.item = s.item) ∧
      (r'.id ≠ oid → r' ∈ rows) := by
  unfold delete_item
  rw [hfind]
  simp only [if_pos hidx, hemp, List.isEmpty_nil, if_pos rfl]
  refine ⟨rfl, ?_⟩
  intro r' hr'
  obtain ⟨s, hs, hmap⟩ := List.mem_map.mp hr'
  by_cases hid : s.id == oid
  · rw [if_pos hid] at hmap
    have hsid : s.id = oid := by simpa using hid
    constructor
    · intro _
      exact ⟨by rw [← hmap], by rw [← hmap], s, hs, hsid, by rw [← hmap]⟩
    · intro hne
      exact absurd (by rw [← hmap]; exact hsid) hne
  · rw [if_neg (by simpa using hid)] at hmap
    subst hmap
    constructor
    · intro h
      exact absurd h (by simpa using hid)
    · intro _
      exact hs

/-- Witness for C1's amended theorem, at the one-item order 2. -/
theorem deleteItem_lastItem_completes_witness :
    (delete_item [exOneItem] 2 0).code = 200 ∧
    ∀ r' ∈ (delete_item [exOneItem] 2 0).rows,
      (r'.id = 2 → r'.status = "completed" ∧ r'.total = some 0 ∧
        ∃ s ∈ [exOneItem], s.id = 2 ∧ r'.item = s.item) ∧
      (r'.id ≠ 2 → r' ∈ [exOneItem]) :=
  deleteItem_lastItem_completes [exOneItem] 2 0 exOneItem rfl (by decide) rfl

/-! ## C2: deleting one item of several -/

/-- C2: when removal leaves a non-empty list, the operation answers 200
and persists, for the matched order, exactly the original list with the
indexed element removed and later elements shifted down one place
(`take idx ++ drop (idx+1)`), together with a total recomputed as the sum
of the remaining items' `price` fields, a missing `price` counting as 0.
All other fields of the order and all other orders are unchanged, and the
handler reads no client-supplied total: its only inputs are the order id
and the index. -/
theorem deleteItem_nonempty_recompute (rows : List OrderRow)
    (oid idx : Nat) (r : OrderRow) (hfind : findOrder rows oid = some r)
    (hidx : idx < r.item.length) (hne : r.item.eraseIdx idx ≠ []) :
    (delete_item rows oid idx).code = 200 ∧
    r.item.eraseIdx idx = r.item.take idx ++ r.item.drop (idx + 1) ∧
    ∀ r' ∈ (delete_item rows oid idx).rows,
      (r'.id = oid → ∃ s ∈ rows, s.id = oid ∧
        r' = { s with item := r.item.eraseIdx idx,
                      total := some (.finite (((r.item.eraseIdx idx).map
                        (fun i => i.price.getD 0)).sum)) }) ∧
      (r'.id ≠ oid → r' ∈ rows) := by
  have hbe : (r.item.eraseIdx idx).isEmpty = false := by
    simpa [List.isEmpty_iff] using hne
  unfold delete_item
  rw [hfind]
  simp only [if_pos hidx, hbe, Bool.false_eq_true, if_false]
  refine ⟨by trivial, List.eraseIdx_eq_take_drop_succ r.item idx, ?_⟩
  intro r' hr'
  obtain ⟨s, hs, hmap⟩ := List.mem_map.mp hr'
  by_cases hid : s.id == oid
  · rw [if_pos hid] at hmap
    have hsid : s.id = oid := by simpa using hid
    constructor
    · intro _
      exact ⟨s, hs, hsid, hmap.symm⟩
    · intro hne'
      exact absurd (by rw [← hmap]; exact hsid) hne'
  · rw [if_neg (by simpa using hid)] at hmap
    subst hmap
    constructor
    · intro h
      exact absurd h (by simpa using hid)
    · intro _
      exact hs

/-- Witness for C2: deleting index 0 of the two-item order 1 leaves the
one-item list `[fries]` with total 7. -/
theorem deleteItem_nonempty_recompute_witness :
    (delete_item [exTwoItems] 1 0).code = 200 ∧
    exTwoItems.item.eraseIdx 0 =
      exTwoItems.item.take 0 ++ exTwoItems.item.drop 1 ∧
    ∀ r' ∈ (delete_item [exTwoItems] 1 0).rows,
      (r'.id = 1 → ∃ s ∈ [exTwoItems], s.id = 1 ∧
        r' = { s with item := exTwoItems.item.eraseIdx 0,
                      total := some (.finite (((exTwoItems.item.eraseIdx 0).map
                        (fun i => i.price.getD 0)).sum)) }) ∧
      (r'.id ≠ 1 → r' ∈ [exTwoItems]) :=
  deleteItem_nonempty_recompute [exTwoItems] 1 0 exTwoItems rfl (by decide)
    (by decide)

/-! ## C3: listing active orders -/

theorem rowView_of_total_ne_none {r : OrderRow} (h : r.total ≠ none) :
    rowView r = some (rowViewTotal r) := by
  cases ht : r.total with
  | none => exact absurd ht h
  | some q => simp [rowView, rowViewTotal, ht]

theorem mapViews_eq_map {l : List OrderRow}
    (h : ∀ r ∈ l, r.total ≠ none) :
    mapViews l = some (l.map rowViewTotal) := by
  induction l with
  | nil => rfl
  | cons a l ih =>
    have ha := rowView_of_total_ne_none (h a (List.mem_cons_self a l))
    have hl := ih (fun r hr => h r (List.mem_cons_of_mem a hr))
    simp [mapViews, ha, hl]

theorem mapViews_eq_none {r : OrderRow} {l : List OrderRow}
    (hmem : r ∈ l) (ht : r.total = none) : mapViews l = none := by
  induction l with
  | nil => cases hmem
  | cons a l ih =>
    rcases List.mem_cons.mp hmem with rfl | h'
    · have hv : rowView r = none := by simp [rowView, ht]
      cases hml : mapViews l <;> simp [mapViews, hv, hml]
    · cases hv : rowView a <;> simp [mapViews, hv, ih h']

/-- C3 counterexample: with a single pending order whose stored total is
SQL NULL, `float(row[5])` raises, so `get_orders` answers 500 with no
body instead of returning that order with its total defaulted to 0 as
the claim asserts. -/
theorem getOrders_nullTotal_cex :
    (get_orders [exNullTotal]).code = 500 ∧
    (get_orders [exNullTotal]).body = none ∧
    get_orders_claimed [exNullTotal] = [⟨3, none, none, none, [], 0⟩] ∧
    (get_orders [exNullTotal]).body ≠
      some (get_orders_claimed [exNullTotal]) := by
  refine ⟨rfl, rfl, by decide, by decide⟩

/-- C3 (amended): when every active order's stored total is non-null,
get-orders answers 200 with exactly the orders whose status is not
`"completed"` (same multiplicity, both inclusions), in ascending id
order, each total coerced to its numeric value; when some active order's
stored total is null, the operation instead fails with the generic 500
error (and no defaulting to 0 happens). -/
theorem getOrders_spec (rows : List OrderRow) :
    ((∀ r ∈ rows, r.status ≠ "completed" → r.total ≠ none) →
      ∃ views, get_orders rows = ⟨200, some views, true, true⟩ ∧
        views.length =
          (rows.filter (fun r => r.status ≠ "completed")).length ∧
        (∀ v ∈ views, ∃ r ∈ rows,
          r.status ≠ "completed" ∧ rowView r = some v) ∧
        (∀ r ∈ rows, r.status ≠ "completed" →
          ∃ v ∈ views, rowView r = some v) ∧
        views.Pairwise (fun a b => a.id ≤ b.id)) ∧
    ((∃ r ∈ rows, r.status ≠ "completed" ∧ r.total = none) →
      get_orders rows = ⟨500, none, true, false⟩) := by
  constructor
  · intro hnn
    have hact : ∀ r ∈ activeSorted rows, r.total ≠ none := by
      intro r hr
      have hf := (List.mem_insertionSort idLe).mp hr
      obtain ⟨hmem, hst⟩ := List.mem_filter.mp hf
      exact hnn r hmem (by simpa using hst)
    have hmv := mapViews_eq_map hact
    refine ⟨(activeSorted rows).map rowViewTotal, ?_, ?_, ?_, ?_, ?_⟩
    · unfold get_orders
      rw [hmv]
    · rw [List.length_map]
      exact (List.perm_insertionSort idLe _).length_eq
    · intro v hv
      obtain ⟨r, hr, hrv⟩ := List.mem_map.mp hv
      have hf := (List.mem_insertionSort idLe).mp hr
      obtain ⟨hmem, hst⟩ := List.mem_filter.mp hf
      have hst' : r.status ≠ "completed" := by simpa using hst
      exact ⟨r, hmem, hst',
        by rw [rowView_of_total_ne_none (hnn r hmem hst'), hrv]⟩
    · intro r hmem hst
      have hf : r ∈ rows.filter (fun r => r.status ≠ "completed") :=
        List.mem_filter.mpr ⟨hmem, by simpa using hst⟩
      have hr : r ∈ activeSorted rows := (List.mem_insertionSort idLe).mpr hf
      exact ⟨rowViewTotal r, List.mem_map.mpr ⟨r, hr, rfl⟩,
        rowView_of_total_ne_none (hnn r hmem hst)⟩
    · have hs := List.sorted_insertionSort idLe
        (rows.filter (fun r => r.status ≠ "completed"))
      exact List.pairwise_map.mpr (hs.imp (fun h => h))
  · intro ⟨r, hmem, hst, ht⟩
    have hf : r ∈ rows.filter (fun r => r.status ≠ "completed") :=
      List.mem_filter.mpr ⟨hmem, by simpa using hst⟩
    have hr : r ∈ activeSorted rows := (List.mem_insertionSort idLe).mpr hf
    have hmv := mapViews_eq_none hr ht
    unfold get_orders
    rw [hmv]

/-- Witness for C3's amended theorem: one pending and one completed
order, all totals non-null. -/
theorem getOrders_spec_witness :
    ∃ views,
      get_orders [exTwoItems, exCompleted] = ⟨200, some views, true, true⟩ ∧
      views.length = ([exTwoItems, exCompleted].filter
        (fun r => r.status ≠ "completed")).length ∧
      (∀ v ∈ views, ∃ r ∈ [exTwoItems, exCompleted],
        r.status ≠ "completed" ∧ rowView r = some v) ∧
      (∀ r ∈ [exTwoItems, exCompleted], r.status ≠ "completed" →
        ∃ v ∈ views, rowView r = some v) ∧
      views.Pairwise (fun a b => a.id ≤ b.id) :=
  (getOrders_spec [exTwoItems, exCompleted]).1 (by decide)

/-! ## C5: submit-order input handling -/

/-- C5 counterexample: with the client total `"abc"`,
`float(data.get('total', 0))` raises before the `try:` block, so the
request fails with a 500 and inserts nothing — it is not defaulted to
zero, and input handling does cause a failure response, contrary to the
claim. -/
theorem submit_nonNumeric_cex :
    submit_order ⟨[], 5⟩ none none none [burger] (.str "abc") 0 =
      ⟨500, none, ⟨[], 5⟩, false, false⟩ ∧
    (submit_order ⟨[], 5⟩ none none none [burger] (.str "abc") 0).code ≠
      200 := by
  refine ⟨by decide, by decide⟩

/-- C5 (amended): a missing client total is defaulted to zero and the
request succeeds, appending a new `"pending"` order whose generated id
(the sequence value) is returned; the same holds for any total `float`
converts — numbers, and strings of `float()`'s full grammar (exponents,
surrounding whitespace, underscore grouping, `inf`/`nan` forms), with
the converted value stored; but a total on which `float` raises (a
non-numeric string, or JSON null) makes the request fail with a 500
before any row is inserted or any connection acquired. -/
theorem submit_order_spec (db : DB) (n p t : Option String)
    (items : List Item) (now : Nat) :
    (submit_order db n p t items .missing now =
      ⟨200, some db.nextId,
        ⟨db.rows ++ [⟨db.nextId, n, p, t, items, some 0, "pending", now⟩],
          db.nextId + 1⟩, true, true⟩) ∧
    (∀ total q, pyFloat? total = some q →
      submit_order db n p t items total now =
        ⟨200, some db.nextId,
          ⟨db.rows ++ [⟨db.nextId, n, p, t, items, some q, "pending", now⟩],
            db.nextId + 1⟩, true, true⟩) ∧
    (∀ total, pyFloat? total = none →
      submit_order db n p t items total now =
        ⟨500, none, db, false, false⟩) := by
  refine ⟨rfl, ?_, ?_⟩
  · intro total q hq
    unfold submit_order
    rw [hq]
  · intro total hq
    unfold submit_order
    rw [hq]

/-- Witness for C5's amended theorem: submitting with the string total
`"1e3"`, which `float()` converts to 1000. -/
theorem submit_order_spec_witness :
    submit_order ⟨[], 5⟩ (some "dana") (some "0501234567") (some "4")
        [burger] (.str "1e3") 9 =
      ⟨200, some 5,
        ⟨[⟨5, some "dana", some "0501234567", some "4", [burger],
            some 1000, "pending", 9⟩], 6⟩, true, true⟩ :=
  (submit_order_spec ⟨[], 5⟩ (some "dana") (some "0501234567") (some "4")
      [burger] 9).2.1 (.str "1e3") 1000 (by rfl)

/-- Boundary exhibits for the `float()` model: exponent form,
surrounding whitespace, `inf`/`nan` forms and underscore grouping
convert (as in Python); a non-numeric string, the empty string,
misplaced underscores and a dangling exponent raise. -/
theorem parsePyFloat_boundary :
    parsePyFloat "1e3" = some (.finite 1000) ∧
    parsePyFloat " 12 " = some (.finite 12) ∧
    parsePyFloat "inf" = some .inf ∧
    parsePyFloat "-Infinity" = some .negInf ∧
    parsePyFloat "nan" = some .nan ∧
    parsePyFloat "1_000" = some (.finite 1000) ∧
    parsePyFloat "abc" = none ∧
    parsePyFloat "" = none ∧
    parsePyFloat "1__0" = none ∧
    parsePyFloat "1e" = none :=
  ⟨by rfl, by rfl, by rfl, by rfl, by rfl, by rfl, by rfl, by rfl,
   by rfl, by rfl⟩

/-! ## C6: connection lifecycle -/

/-- C6 counterexample: the not-found early return of `delete_item`
(line 133) answers 404 after acquiring the connection but without ever
reaching the `conn.close()` at line 155, so the per-request connection is
not released on this path. -/
theorem conn_leak_cex :
    (delete_item [] 1 0).connAcquired = true ∧
    (delete_item [] 1 0).connClosed = false ∧
    (delete_item [] 1 0).code = 404 := by
  refine ⟨rfl, rfl, rfl⟩

/-- C6 (amended): each handler closes its connection exactly on its
200-success path — `delete_item`'s 404/400 early returns and
`get_orders`' exception path return with the acquired connection left
open; `submit_order`'s conversion failure happens before any connection
is acquired; `delete_order` and `delete_all_orders` always close; and
`order_status` closes whenever it acquires (both its 200 and 404
answers, while its 400 answer precedes acquisition). -/
theorem conn_lifecycle (db : DB) (rows : List OrderRow) (oid idx : Nat)
    (n p t : Option String) (items : List Item) (tot : TotalField)
    (now : Nat) (ph : Option String) (ord : Option Int) :
    (delete_item rows oid idx).connClosed =
      ((delete_item rows oid idx).code == 200) ∧
    (submit_order db n p t items tot now).connClosed =
      ((submit_order db n p t items tot now).code == 200) ∧
    (submit_order db n p t items tot now).connAcquired =
      ((submit_order db n p t items tot now).code == 200) ∧
    (get_orders rows).connClosed = ((get_orders rows).code == 200) ∧
    (delete_order rows oid).connClosed = true ∧
    (delete_all_orders rows).connClosed = true ∧
    (order_status rows ph ord).connClosed =
      (order_status rows ph ord).connAcquired := by
  refine ⟨?_, ?_, ?_, ?_, rfl, rfl, ?_⟩
  · unfold delete_item
    cases findOrder rows oid with
    | none => rfl
    | some row =>
      by_cases h : idx < row.item.length
      · by_cases he : (row.item.eraseIdx idx).isEmpty = true
        · simp [h, he]
        · simp [h, he]
      · simp [h]
  · cases hq : pyFloat? tot with
    | none => simp [submit_order, hq]
    | some q => simp [submit_order, hq]
  · cases hq : pyFloat? tot with
    | none => simp [submit_order, hq]
    | some q => simp [submit_order, hq]
  · cases hm : mapViews (activeSorted rows) with
    | none => simp [get_orders, hm]
    | some views => simp [get_orders, hm]
  · unfold order_status
    by_cases h : truthyStr ph = true
    · rw [if_pos h]
      cases statusRow rows (ph.getD "") ord with
      | none => rfl
      | some r => rfl
    · rw [if_neg h]

/-! ## C7: completing one order -/

/-- A row on which the per-row rewrite of an `UPDATE ... WHERE id` acts
as the identity stays in the table. -/
theorem mem_updateRow_of_fix {rows : List OrderRow} {oid : Nat}
    {f : OrderRow → OrderRow} {r : OrderRow} (hr : r ∈ rows)
    (hfix : (if r.id == oid then f r else r) = r) :
    r ∈ updateRow rows oid f := by
  have h : (if r.id == oid then f r else r) ∈ updateRow rows oid f := by
    unfold updateRow
    exact List.mem_map.mpr ⟨r, hr, rfl⟩
  rwa [hfix] at h

/-- C7: for every order id, `delete_order` answers 200 and marks every
matching order completed; orders with other ids are untouched; when no
order has the id the table is unchanged and the answer is still 200 (no
404); completing an already-completed order leaves its row exactly as it
was; and the operation is idempotent. -/
theorem delete_order_spec (rows : List OrderRow) (oid : Nat) :
    (delete_order rows oid).code = 200 ∧
    (∀ r' ∈ (delete_order rows oid).rows,
      r'.id = oid → r'.status = "completed") ∧
    (∀ r ∈ rows, r.id ≠ oid → r ∈ (delete_order rows oid).rows) ∧
    ((∀ r ∈ rows, r.id ≠ oid) → (delete_order rows oid).rows = rows) ∧
    (∀ r ∈ rows, r.id = oid → r.status = "completed" →
      r ∈ (delete_order rows oid).rows) ∧
    (delete_order (delete_order rows oid).rows oid).rows =
      (delete_order rows oid).rows := by
  refine ⟨rfl, ?_, ?_, ?_, ?_, ?_⟩
  · intro r' hr'
    obtain ⟨s, hs, hmap⟩ := List.mem_map.mp hr'
    by_cases hid : s.id == oid
    · rw [if_pos hid] at hmap
      intro _
      rw [← hmap]
    · rw [if_neg (by simpa using hid)] at hmap
      subst hmap
      intro h
      exact absurd h (by simpa using hid)
  · intro r hr hne
    exact mem_updateRow_of_fix hr (by rw [if_neg (by simpa using hne)])
  · intro hall
    have h1 : ∀ r ∈ rows,
        (if r.id == oid then { r with status := "completed" } else r) = r :=
      fun r hr => by rw [if_neg (by simpa using hall r hr)]
    have h2 : (delete_order rows oid).rows = rows.map (fun r => r) :=
      List.map_congr_left h1
    simpa using h2
  · intro r hr hid hst
    refine mem_updateRow_of_fix hr ?_
    by_cases h : r.id == oid
    · rw [if_pos h]
      cases r
      simp_all
    · rw [if_neg h]
  · show List.map _ (List.map _ rows) = List.map _ rows
    rw [List.map_map]
    refine List.map_congr_left (fun r _ => ?_)
    by_cases h : r.id == oid
    · simp [Function.comp, h]
    · simp [Function.comp, h]

/-- Witness for C7: completing order 4 (already completed) leaves its
row in place, and completing the absent id 9 changes nothing. -/
theorem delete_order_spec_witness :
    (delete_order [exTwoItems, exCompleted] 9).code = 200 ∧
    (delete_order [exTwoItems, exCompleted] 9).rows =
      [exTwoItems, exCompleted] ∧
    exCompleted ∈ (delete_order [exTwoItems, exCompleted] 4).rows :=
  ⟨(delete_order_spec [exTwoItems, exCompleted] 9).1,
    (delete_order_spec [exTwoItems, exCompleted] 9).2.2.2.1 (by decide),
    (delete_order_spec [exTwoItems, exCompleted] 4).2.2.2.2.1 exCompleted
      (by decide) (by decide) rfl⟩

/-! ## C8: status lookup by phone -/

theorem maxIdRow_ne_none (a : OrderRow) (l : List OrderRow) :
    maxIdRow? (a :: l) ≠ none := by
  unfold maxIdRow?
  cases maxIdRow? l <;> simp

theorem maxIdRow_mem_max :
    ∀ {l : List OrderRow} {m : OrderRow}, maxIdRow? l = some m →
      m ∈ l ∧ ∀ x ∈ l, x.id ≤ m.id := by
  intro l
  induction l with
  | nil => intro m h; cases h
  | cons a l ih =>
    intro m h
    rw [maxIdRow?] at h
    cases hml : maxIdRow? l with
    | none =>
      rw [hml] at h
      cases h
      cases l with
      | nil => exact ⟨List.mem_cons_self a [], by simp⟩
      | cons b l' => exact absurd hml (maxIdRow_ne_none b l')
    | some m' =>
      rw [hml] at h
      dsimp only at h
      obtain ⟨hmem', hmax'⟩ := ih hml
      by_cases hle : m'.id ≤ a.id
      · rw [if_pos hle] at h
        cases h
        refine ⟨List.mem_cons_self a l, ?_⟩
        intro x hx
        rcases List.mem_cons.mp hx with rfl | hx'
        · exact Nat.le_refl _
        · exact Nat.le_trans (hmax' x hx') hle
      · rw [if_neg hle] at h
        cases h
        refine ⟨List.mem_cons_of_mem a hmem', ?_⟩
        intro x hx
        rcases List.mem_cons.mp hx with rfl | hx'
        · exact Nat.le_of_lt (Nat.lt_of_not_le hle)
        · exact hmax' x hx'

/-- Under unique ids, the `ORDER BY id DESC LIMIT 1` row is the member
with the greatest id. -/
theorem maxIdRow_eq {l : List OrderRow} {r : OrderRow} (hmem : r ∈ l)
    (hmax : ∀ x ∈ l, x.id ≤ r.id)
    (hnd : (l.map OrderRow.id).Nodup) :
    maxIdRow? l = some r := by
  cases l with
  | nil => cases hmem
  | cons a l' =>
    cases hml : maxIdRow? (a :: l') with
    | none => exact absurd hml (maxIdRow_ne_none a l')
    | some m =>
      obtain ⟨hm, hmx⟩ := maxIdRow_mem_max hml
      have h1 : m.id ≤ r.id := hmax m hm
      have h2 : r.id ≤ m.id := hmx r hmem
      have : m = r :=
        List.inj_on_of_nodup_map hnd hm hmem (Nat.le_antisymm h1 h2)
      exact congrArg some this

/-- C8: with a phone and no order id, the handler answers 404 when no
order has that phone, and otherwise answers 200 with the status of the
order carrying the greatest id among those whose phone matches (ids are
unique, being the primary key). -/
theorem order_status_by_phone (rows : List OrderRow) (p : String)
    (hp : p ≠ "") (hnd : (rows.map OrderRow.id).Nodup) :
    ((∀ r ∈ rows, r.phone ≠ some p) →
      order_status rows (some p) none =
        ⟨404, false, none, none, true, true⟩) ∧
    (∀ r ∈ rows, r.phone = some p →
      (∀ r2 ∈ rows, r2.phone = some p → r2.id ≤ r.id) →
      order_status rows (some p) none =
        ⟨200, true, some r.status, none, true, true⟩) := by
  have htr : truthyStr (some p) = true := by
    simp [truthyStr, hp]
  constructor
  · intro h
    have hnone : phoneRows rows p = [] :=
      List.filter_eq_nil_iff.mpr (fun r hr => by simpa using h r hr)
    have hsr : statusRow rows p none = none := by
      simp [statusRow, truthyInt, hnone, maxIdRow?]
    unfold order_status
    rw [if_pos htr, Option.getD_some, hsr]
  · intro r hr hphone hmax
    have hmemf : r ∈ phoneRows rows p :=
      List.mem_filter.mpr ⟨hr, by simpa using hphone⟩
    have hmaxf : ∀ x ∈ phoneRows rows p, x.id ≤ r.id := by
      intro x hx
      obtain ⟨hx1, hx2⟩ := List.mem_filter.mp hx
      exact hmax x hx1 (by simpa using hx2)
    have hsub :
        ((phoneRows rows p).map OrderRow.id).Sublist
          (rows.map OrderRow.id) :=
      List.Sublist.map OrderRow.id (List.filter_sublist rows)
    have hndf : ((phoneRows rows p).map OrderRow.id).Nodup :=
      List.Nodup.sublist hsub hnd
    have hm : maxIdRow? (phoneRows rows p) = some r :=
      maxIdRow_eq hmemf hmaxf hndf
    have hsr : statusRow rows p none = some r := by
      simp [statusRow, truthyInt, hm]
    unfold order_status
    rw [if_pos htr, Option.getD_some, hsr]

/-- Witness for C8: with two orders on one phone, the lookup answers with
the higher-id order's status; a phone with no orders gets 404. -/
theorem order_status_by_phone_witness :
    order_status [exPhoneA, exPhoneB] (some "0541112222") none =
      ⟨200, true, some "completed", none, true, true⟩ ∧
    order_status [exPhoneA, exPhoneB] (some "0599999999") none =
      ⟨404, false, none, none, true, true⟩ :=
  ⟨(order_status_by_phone [exPhoneA, exPhoneB] "0541112222" (by decide)
      (by decide)).2 exPhoneB (by decide) rfl (by decide),
   (order_status_by_phone [exPhoneA, exPhoneB] "0599999999" (by decide)
      (by decide)).1 (by decide)⟩

/-! ## C9: the status only moves forward -/

/-- C9: after any one request — submit, complete-one, complete-all,
delete-item, status lookup or listing — every row of the table is either
an old row with its status unchanged, or a row whose status has been set
to `"completed"`, or a freshly inserted row with status `"pending"` and
an id no existing row had.  In particular a `"completed"` status is never
rewritten to anything else: `"completed"` is terminal.  The hypothesis is
the primary-key freshness invariant: every existing id is below the
sequence value. -/
theorem status_forward_only (db : DB) (op : Op)
    (hfresh : ∀ r ∈ db.rows, r.id < db.nextId) :
    ∀ r' ∈ (applyOp db op).rows,
      (∃ r ∈ db.rows, r.id = r'.id ∧
        (r'.status = r.status ∨ r'.status = "completed")) ∨
      (r'.status = "pending" ∧ ∀ r ∈ db.rows, r.id ≠ r'.id) := by
  intro r' hmem
  cases op with
  | submit n p t items tot now =>
    cases hq : pyFloat? tot with
    | none =>
      simp only [applyOp, submit_order, hq] at hmem
      exact Or.inl ⟨r', hmem, rfl, Or.inl rfl⟩
    | some q =>
      simp only [applyOp, submit_order, hq] at hmem
      rcases List.mem_append.mp hmem with hold | hnew
      · exact Or.inl ⟨r', hold, rfl, Or.inl rfl⟩
      · have hr' : r' =
            ⟨db.nextId, n, p, t, items, some q, "pending", now⟩ := by
          simpa using hnew
        subst hr'
        refine Or.inr ⟨rfl, ?_⟩
        intro r hr
        exact Nat.ne_of_lt (hfresh r hr)
  | completeOne oid =>
    simp only [applyOp, delete_order] at hmem
    obtain ⟨s, hs, hmap⟩ := List.mem_map.mp hmem
    by_cases hid : s.id == oid
    · rw [if_pos hid] at hmap
      subst hmap
      exact Or.inl ⟨s, hs, rfl, Or.inr rfl⟩
    · rw [if_neg hid] at hmap
      subst hmap
      exact Or.inl ⟨s, hs, rfl, Or.inl rfl⟩
  | completeAll =>
    simp only [applyOp, delete_all_orders] at hmem
    obtain ⟨s, hs, hmap⟩ := List.mem_map.mp hmem
    by_cases hst : s.status ≠ "completed"
    · rw [if_pos hst] at hmap
      subst hmap
      exact Or.inl ⟨s, hs, rfl, Or.inr rfl⟩
    · rw [if_neg hst] at hmap
      subst hmap
      exact Or.inl ⟨s, hs, rfl, Or.inl rfl⟩
  | deleteItem oid idx =>
    simp only [applyOp] at hmem
    cases hf : findOrder db.rows oid with
    | none =>
      simp only [delete_item, hf] at hmem
      exact Or.inl ⟨r', hmem, rfl, Or.inl rfl⟩
    | some row =>
      by_cases h : idx < row.item.length
      · by_cases he : (row.item.eraseIdx idx).isEmpty = true
        · simp only [delete_item, hf, if_pos h, if_pos he,
            updateRow] at hmem
          obtain ⟨s, hs, hmap⟩ := List.mem_map.mp hmem
          by_cases hid : s.id == oid
          · rw [if_pos hid] at hmap
            subst hmap
            exact Or.inl ⟨s, hs, rfl, Or.inr rfl⟩
          · rw [if_neg hid] at hmap
            subst hmap
            exact Or.inl ⟨s, hs, rfl, Or.inl rfl⟩
        · simp only [delete_item, hf, if_pos h, if_neg he,
            updateRow] at hmem
          obtain ⟨s, hs, hmap⟩ := List.mem_map.mp hmem
          by_cases hid : s.id == oid
          · rw [if_pos hid] at hmap
            subst hmap
            exact Or.inl ⟨s, hs, rfl, Or.inl rfl⟩
          · rw [if_neg hid] at hmap
            subst hmap
            exact Or.inl ⟨s, hs, rfl, Or.inl rfl⟩
      · simp only [delete_item, hf, if_neg h] at hmem
        exact Or.inl ⟨r', hmem, rfl, Or.inl rfl⟩
  | statusLookup ph ord =>
    simp only [applyOp] at hmem
    exact Or.inl ⟨r', hmem, rfl, Or.inl rfl⟩
  | listOrders =>
    simp only [applyOp] at hmem
    exact Or.inl ⟨r', hmem, rfl, Or.inl rfl⟩

/-- Witness for C9: completing order 1 in a two-row table whose sequence
value is 5. -/
theorem status_forward_only_witness :
    (∃ r ∈ [exTwoItems, exCompleted], r.id =
        ({ exTwoItems with status := "completed" } : OrderRow).id ∧
      (({ exTwoItems with status := "completed" } : OrderRow).status =
          r.status ∨
        ({ exTwoItems with status := "completed" } : OrderRow).status =
          "completed")) ∨
    (({ exTwoItems with status := "completed" } : OrderRow).status =
        "pending" ∧
      ∀ r ∈ [exTwoItems, exCompleted], r.id ≠
        ({ exTwoItems with status := "completed" } : OrderRow).id) :=
  status_forward_only ⟨[exTwoItems, exCompleted], 5⟩ (.completeOne 1)
    (by decide) { exTwoItems with status := "completed" } (by decide)

/-! ## C10: order id 0 is falsy -/

/-- C10: because Python's `if order_id:` treats the integer 0 as absent,
an order-status request with `order=0` behaves exactly like a request
with no order id at all: the phone-only most-recent lookup runs instead
of the id-and-phone-constrained one.  (With no phone, both return the
same phone-required failure.) -/
theorem order_status_zero_id (rows : List OrderRow) (ph : Option String) :
    order_status rows ph (some 0) = order_status rows ph none := rfl
